import Mathlib

/-!
Verification of the website-analyzer backend core against its specification.

Shallow embedding of:
  * the SSRF guard (src/src/utils/ssrf.ts),
  * the private-IP branch of the redirect-check controller
    (src/src/controllers/seoAnalyzer.ts),
  * the sliding-window rate limiter (src/src/utils/rateLimiter/rateLimiter.ts),
  * the redirect-chain resolver (src/src/services/redirectCheckerService.ts)
    and the chain analysis (src/src/controllers/seoAnalyzer.ts),
  * the event-driven site crawler (src/src/utils/technical-seo-analyzer/crawler.ts),
  * the broken-link classifier (src/src/utils/technical-seo-analyzer/link-checker.ts),
  * the orchestrator retry loop and task-status map
    (src/src/utils/technical-seo-analyzer/index.ts).

External collaborators (the WHATWG URL parser, the DNS resolver, the HTTP
client, cheerio HTML extraction, the simplecrawler event source) are passed
in as explicit oracle functions; everything else is translated from the
TypeScript source.
-/

/-! ## String helpers

Character-level models of the JavaScript string primitives the source uses
(`startsWith`, `split`, `toLowerCase`, `trim`, `includes`).  They operate on
the character list of the string so that every definition evaluates inside
the kernel. -/

/-- JS `s.startsWith(p)`. -/
def strStartsWith (s p : String) : Bool :=
  p.toList.isPrefixOf s.toList

/-- Split a character list at every occurrence of the separator character,
like JS `s.split(c)` for a one-character separator. -/
def splitOnChar (c : Char) : List Char → List (List Char)
  | [] => [[]]
  | x :: xs =>
    match splitOnChar c xs with
    | [] => [[]]
    | g :: gs => if x = c then [] :: g :: gs else (x :: g) :: gs

/-- JS `s.split(c)` for a one-character separator, as strings. -/
def strSplitOn (c : Char) (s : String) : List String :=
  (splitOnChar c s.toList).map String.mk

/-- JS `s.toLowerCase()` (ASCII case folding suffices for the hostnames and
flag strings of this code base). -/
def strToLower (s : String) : String :=
  String.mk (s.toList.map Char.toLower)

/-- JS `s.trim()`. -/
def strTrim (s : String) : String :=
  String.mk (((s.toList.dropWhile Char.isWhitespace).reverse.dropWhile
    Char.isWhitespace).reverse)

/-- JS `s.includes(sub)`. -/
def strIncludes (s sub : String) : Bool :=
  decide (List.IsInfix sub.toList s.toList)

/-! ## SSRF guard  (src/src/utils/ssrf.ts) -/

/-- Test of the JS regular expression
`^10\.|^127\.|^192\.168\.|^172\.(1[6-9]|2[0-9]|3[0-1])\.`
against an IPv4 address string (ssrf.ts line 17). -/
def privateIpRegexTest (ip : String) : Bool :=
  strStartsWith ip "10." || strStartsWith ip "127." ||
  strStartsWith ip "192.168." ||
  (strStartsWith ip "172." &&
    ["16.", "17.", "18.", "19.", "20.", "21.", "22.", "23.", "24.",
     "25.", "26.", "27.", "28.", "29.", "30.", "31."].any
      (fun p => strStartsWith (ip.drop 4) p))

/-- Model of `ssrfCheck.isSafeHost` (ssrf.ts lines 12-21).  `parseHostname` models
`new URL(url).hostname` (`none` = the constructor threw); `resolve4` models
`dns.resolve4` (`none` = the promise rejected).  Both failures land in the
`catch`, which returns `false`. -/
def isSafeHost (parseHostname : String → Option String)
    (resolve4 : String → Option (List String)) (url : String) : Bool :=
  match parseHostname url with
  | none => false
  | some hostname =>
    match resolve4 hostname with
    | none => false
    | some addresses => addresses.all (fun ip => ! privateIpRegexTest ip)

/-! ## Private-IP branch of `handleRedirectCheck`
(src/src/controllers/seoAnalyzer.ts lines 427-450) -/

/-- The member names defined on the `ssrfCheck` object literal
(ssrf.ts lines 3-22): only these two methods exist. -/
def ssrfCheckMembers : List String := ["isValidHttpUrl", "isSafeHost"]

/-- One dot-separated group of the hostname regex: 1 to 3 digit characters. -/
def digitGroup (s : String) : Bool :=
  decide (1 ≤ s.length) && decide (s.length ≤ 3) && s.toList.all Char.isDigit

/-- Test of the JS regular expression for a dotted-quad IPv4 literal used at
seoAnalyzer.ts line 433: exactly four dot-separated groups of 1-3 digits. -/
def ipv4LiteralTest (hostname : String) : Bool :=
  let parts := strSplitOn '.' hostname
  decide (parts.length = 4) && parts.all digitGroup

/-- A JS method call `obj.name(arg)` on an object whose defined member names
are `members`: if `name` is not a member the property access yields
`undefined` and the call throws a `TypeError`, modelled as `none`. -/
def callBoolMember (members : List String) (impl : String → Bool)
    (name arg : String) : Option Bool :=
  if name ∈ members then some (impl arg) else none

/-- The computation of `isPrivate` in `handleRedirectCheck`
(seoAnalyzer.ts lines 428-438): parse the URL, test the hostname against the
IPv4-literal regex, then call `ssrfCheck.isPrivateIP(hostname)` inside a
`try` whose `catch` ignores the error.  `isPrivateIPImpl` is an arbitrary
implementation the missing method could have had. -/
def computeIsPrivate (parseHostname : String → Option String)
    (isPrivateIPImpl : String → Bool) (normalized : String) : Bool :=
  match parseHostname normalized with
  | none => false
  | some hostname =>
    if ipv4LiteralTest hostname then
      match callBoolMember ssrfCheckMembers isPrivateIPImpl "isPrivateIP" hostname with
      | none => false
      | some b => b
    else false

/-! ## Rate limiter  (src/src/utils/rateLimiter/rateLimiter.ts lines 15-52) -/

/-- Model of `Math.min(...list)` over a possibly empty list of timestamps;
`none` models the `Infinity` of an empty spread. -/
def listMin : List Int → Option Int
  | [] => none
  | x :: xs => some (xs.foldl min x)

/-- Return value and updated per-identity timestamp list of
`RateLimiter.checkLimit`. -/
structure LimitResult where
  allowed : Bool
  remaining : Nat
  resetTime : Option Int
  limitVal : Nat
  newRequests : List Int
deriving DecidableEq

/-- Model of `RateLimiter.checkLimit` for one identity (rateLimiter.ts lines 15-52):
filter out timestamps not strictly newer than `now - windowMs`, then either
deny (when the surviving count has reached `maxRequests`, reporting
`resetTime` = oldest surviving timestamp + window) or record `now` and allow. -/
def checkLimit (windowMs : Int) (maxRequests : Nat) (requests : List Int)
    (now : Int) : LimitResult :=
  let windowStart := now - windowMs
  let recentRequests := requests.filter (fun time => windowStart < time)
  if maxRequests ≤ recentRequests.length then
    { allowed := false
      remaining := 0
      resetTime := (listMin recentRequests).map (· + windowMs)
      limitVal := maxRequests
      newRequests := recentRequests }
  else
    { allowed := true
      remaining := maxRequests - (recentRequests.length + 1)
      resetTime := some (now + windowMs)
      limitVal := maxRequests
      newRequests := recentRequests ++ [now] }

/-- A sequence of `checkLimit` calls for one identity at the given call
times, starting from the given stored timestamp list; returns each call's
time paired with its `allowed` flag. -/
def runChecks (windowMs : Int) (maxRequests : Nat) :
    List Int → List Int → List (Int × Bool)
  | _, [] => []
  | state, now :: rest =>
    let r := checkLimit windowMs maxRequests state now
    (now, r.allowed) :: runChecks windowMs maxRequests r.newRequests rest

/-- Number of admitted calls whose time lies in the half-open sliding
window `(s, s + windowMs]`. -/
def admittedInWindow (s windowMs : Int) (trace : List (Int × Bool)) : Nat :=
  trace.countP (fun p => p.2 && decide (s < p.1) && decide (p.1 ≤ s + windowMs))

/-- Membership test for the window `(s, s + windowMs]` on a stored timestamp. -/
def inWindow (s windowMs : Int) (t : Int) : Bool :=
  decide (s < t) && decide (t ≤ s + windowMs)

/-! ## Redirect chain resolver  (src/src/services/redirectCheckerService.ts) -/

/-- The fields of an HTTP response that `RedirectChecker.check` inspects:
status code, `Location` header, `Content-Type` header and body. -/
structure HttpResponse where
  status : Nat
  location : Option String
  contentType : Option String
  body : String
deriving DecidableEq

/-- One entry of the chain returned by `RedirectChecker.check`
(redirectCheckerService.ts lines 11-17).  There is no field flagging
truncation: the interface carries only url/status/headers/html/error. -/
structure RedirectResult where
  url : String
  status : Option Nat
  html : Option String
  error : Option String
deriving DecidableEq

/-- External collaborators of `RedirectChecker.check`: the HTTP client
(`server`, `.error` = the request threw), the WHATWG URL resolver
(`resolveUrl rel base`, `.error` = `new URL` threw, making
`RedirectChecker.resolveUrl` throw `Invalid URL`), and cheerio-based
`parseMetaRefresh` (`.ok none` = no meta-refresh tag; `.error` = the URL
inside the tag failed to resolve). -/
structure RedirectEnv where
  server : String → Except String HttpResponse
  resolveUrl : String → String → Except String String
  metaRefreshUrl : String → String → Except String (Option String)

/-- Whether `response.headers[contentTypeKey]?.includes(textHtml)` holds. -/
def contentTypeIsHtml (ct : Option String) : Bool :=
  match ct with
  | none => false
  | some s => strIncludes s "text/html"

/-- The `while (redirectCount <= this.maxRedirects)` loop of
`RedirectChecker.check` (redirectCheckerService.ts lines 37-77), indexed by
the number of loop iterations still permitted
(`fuel = maxRedirects + 1 - redirectCount`, so the JS guard
`redirectCount <= maxRedirects` is exactly `fuel > 0`, and the
`redirectCount++` of each `continue` is the decrement).  Each iteration
pushes one hop; a 3xx response with a `Location` header, or a 200 HTML
response with a meta-refresh URL, continues with the resolved next URL; a
thrown error pushes an error entry and stops; anything else stops.  When
the fuel runs out the loop exits with no marker. -/
def checkLoop (env : RedirectEnv) : Nat → String → List RedirectResult
  | 0, _ => []
  | fuel + 1, currentUrl =>
    match env.server currentUrl with
    | .error msg =>
      [{ url := currentUrl, status := none, html := none, error := some msg }]
    | .ok resp =>
      let result : RedirectResult :=
        { url := currentUrl, status := some resp.status,
          html := some resp.body, error := none }
      if 300 ≤ resp.status ∧ resp.status < 400 then
        match resp.location with
        | some loc =>
          match env.resolveUrl loc currentUrl with
          | .ok nextUrl => result :: checkLoop env fuel nextUrl
          | .error m =>
            [result,
             { url := currentUrl, status := none, html := none, error := some m }]
        | none => [result]
      else if resp.status = 200 ∧ contentTypeIsHtml resp.contentType then
        match env.metaRefreshUrl resp.body currentUrl with
        | .ok (some nextUrl) => result :: checkLoop env fuel nextUrl
        | .ok none => [result]
        | .error m =>
          [result,
           { url := currentUrl, status := none, html := none, error := some m }]
      else [result]

/-- Model of `RedirectChecker.check(url)`: run the loop from redirect count 0,
that is with `maxRedirects + 1` permitted iterations. -/
def check (env : RedirectEnv) (maxRedirects : Nat) (url : String) :
    List RedirectResult :=
  checkLoop env (maxRedirects + 1) url

/-! ## Redirect chain analysis
(`analyzeRedirectChain`, src/src/controllers/seoAnalyzer.ts lines 197-348).
The fields the claims are about (counts, final URL/status, SEO and security
issue lists, domain changes); `redirectTypes`, response-time metrics and the
canonical-redirect hint are not modelled as no claim mentions them.
`extractDomain` (a wrapper over `new URL(url).hostname.toLowerCase()`) is an
oracle parameter. -/

/-- JS `url.split(c)[0]`. -/
def splitFirst (c : Char) (u : String) : String :=
  match strSplitOn c u with
  | [] => u
  | g :: _ => g

/-- Model of `stripWww` (seoAnalyzer.ts lines 179-181): remove a leading `www.`
(case-insensitively) and lowercase. -/
def stripWww (hostname : String) : String :=
  strToLower (if strStartsWith (strToLower hostname) "www." then
    hostname.drop 4 else hostname)

/-- JS `if (!list.includes(x)) list.push(x)`. -/
def pushUnique (l : List String) (x : String) : List String :=
  if x ∈ l then l else l ++ [x]

/-- JS `a?.url || b`: the fallback fires when `a` is missing or its url is
the empty string (falsy). -/
def jsOrString (a : Option String) (b : String) : String :=
  match a with
  | none => b
  | some s => if s = "" then b else s

/-- Accumulator of the `redirectChain.forEach` loop
(seoAnalyzer.ts lines 223-280), restricted to the modelled fields. -/
structure ChainFoldAcc where
  securityIssues : List String
  seoIssues : List String
  domainChanges : List (String × String × Nat)
  previousDomain : String
deriving DecidableEq

/-- Body of the `forEach` for the element at position `index`:
temporary-redirect flagging for non-final 3xx hops, and domain-change /
mixed-content tracking. -/
def chainFoldStep (extractDomain : String → String)
    (chain : List RedirectResult) (acc : ChainFoldAcc)
    (index : Nat) (result : RedirectResult) : ChainFoldAcc :=
  let currentDomain := extractDomain result.url
  let acc1 :=
    if index < chain.length - 1 then
      match result.status with
      | some st =>
        if 300 ≤ st ∧ st < 400 ∧ (st = 302 ∨ st = 307) then
          { acc with seoIssues := pushUnique acc.seoIssues "temporary-redirect-in-chain" }
        else acc
      | none => acc
    else acc
  let acc2 :=
    if acc1.previousDomain ≠ "" ∧
        stripWww currentDomain ≠ stripWww acc1.previousDomain then
      let withChange :=
        { acc1 with
          domainChanges :=
            acc1.domainChanges ++ [(acc1.previousDomain, currentDomain, index + 1)]
          securityIssues := pushUnique acc1.securityIssues "domain-change" }
      if ((match chain.get? (index - 1) with
           | some prev => strStartsWith prev.url "https://"
           | none => false) && strStartsWith result.url "http://") = true then
        { withChange with
          securityIssues := pushUnique withChange.securityIssues "mixed-content" }
      else withChange
    else acc1
  { acc2 with previousDomain := currentDomain }

/-- The normalized URL list used for loop detection
(seoAnalyzer.ts line 283): `r.url.split(hashChar)[0]` for each hop. -/
def normalizedChainUrls (chain : List RedirectResult) : List String :=
  chain.map (fun r => splitFirst '#' r.url)

/-- Model of the test
`normalizedChainUrls.some((u, i) => normalizedChainUrls.indexOf(u) !== i)`
(seoAnalyzer.ts line 284): true exactly when some URL repeats. -/
def hasLoop (urls : List String) : Bool :=
  urls.enum.any (fun p => decide (urls.indexOf p.2 ≠ p.1))

/-- The modelled output of `analyzeRedirectChain`. -/
structure RedirectAnalysis where
  totalRedirects : Nat
  finalUrl : String
  finalStatus : Option Nat
  hasRedirects : Bool
  securityIssues : List String
  seoIssues : List String
  domainChanges : List (String × String × Nat)
deriving DecidableEq

/-- Model of `analyzeRedirectChain` (seoAnalyzer.ts lines 197-348).  `maxRedirectsEnv`
is the module-level `MAX_REDIRECTS` constant (env `MAX_REDIRECTS` or 20);
`suspiciousDomains` is the `SUSPICIOUS_DOMAINS` env list (default empty). -/
def analyzeRedirectChain (extractDomain : String → String)
    (suspiciousDomains : List String) (maxRedirectsEnv : Nat)
    (chain : List RedirectResult) : RedirectAnalysis :=
  let totalRedirects := chain.length - 1
  let finalResult := chain.getLast?
  let finalUrl :=
    match finalResult with
    | none => ""
    | some fr =>
      if fr.error.isSome then
        jsOrString ((chain.find? (fun r => r.error.isNone)).map (·.url))
          ((chain.headD fr).url)
      else fr.url
  let finalStatus :=
    match finalResult with
    | none => none
    | some fr =>
      match fr.status with
      | some st => if st = 0 then none else some st
      | none => none
  let acc0 : ChainFoldAcc :=
    { securityIssues := [], seoIssues := [], domainChanges := [],
      previousDomain := "" }
  let acc :=
    chain.enum.foldl
      (fun a p => chainFoldStep extractDomain chain a p.1 p.2) acc0
  let seoIssues1 :=
    if hasLoop (normalizedChainUrls chain) then
      pushUnique acc.seoIssues "redirect-loop"
    else acc.seoIssues
  let securityIssues1 :=
    if maxRedirectsEnv < totalRedirects then
      acc.securityIssues ++ ["too-many-redirects"]
    else acc.securityIssues
  let seoIssues2 :=
    if 3 < totalRedirects then seoIssues1 ++ ["redirect-chain-too-long"]
    else seoIssues1
  let seoIssues3 :=
    if 1 < totalRedirects then seoIssues2 ++ ["multiple-redirects"]
    else seoIssues2
  let securityIssues2 :=
    if suspiciousDomains.any
        (fun d => d ≠ "" && strIncludes finalUrl (strTrim d)) then
      securityIssues1 ++ ["suspicious-redirect"]
    else securityIssues1
  { totalRedirects := totalRedirects
    finalUrl := finalUrl
    finalStatus := finalStatus
    hasRedirects := 0 < totalRedirects
    securityIssues := securityIssues2
    seoIssues := seoIssues3
    domainChanges := acc.domainChanges }

/-! ## Site crawler  (src/src/utils/technical-seo-analyzer/crawler.ts)

`TechnicalSEOAnalyzer.crawl()` takes no parameters: the caps are the
hard-coded settings of the method body (`crawler.maxDepth = 2`,
`maxPages = 8`).  The simplecrawler library is an external event source;
the handlers installed by `crawl` are modelled as a fold over the sequence
of events the library delivers.  The handlers contain no guard of their
own: every delivered event is processed.  The bare `crawler.stop()` call
does not abort requests already in flight, so `fetchcomplete` can still
fire after a stop; which events are delivered after a stop request is the
library's affair, hence the event sequence is universally quantified and
`stopRequested` merely records that `crawler.stop()` has been called. -/

/-- An entry of the `crawledPages` map (crawler.ts lines 5-12). -/
structure CrawledPage where
  status : Nat
  title : Option String
  description : Option String
  isIndexable : Option Bool
  links : Option (List String)
  error : Option Bool
deriving DecidableEq

/-- Events emitted by the crawler library to the handlers registered in
`crawl`.  `fetchComplete` carries the data the handler extracts from the
response with cheerio (status code, title, description, indexability,
same-origin links). -/
inductive CrawlEvent where
  | fetchComplete (url : String) (statusCode : Option Nat)
      (title description : Option String) (isIndexable : Bool)
      (links : List String)
  | fetchTimeout (url : String)
  | fetchError (url : String) (statusCode : Option Nat)
deriving DecidableEq

/-- Model of `Map.set` on an insertion-ordered association list. -/
def mapSet (m : List (String × CrawledPage)) (k : String) (v : CrawledPage) :
    List (String × CrawledPage) :=
  if m.any (fun p => p.1 = k) then
    m.map (fun p => if p.1 = k then (k, v) else p)
  else m ++ [(k, v)]

/-- The mutable state of one `crawl()` call: the `crawledPages` map, the
`pagesFound` counter and whether `crawler.stop()` has been called so far. -/
structure CrawlerState where
  pages : List (String × CrawledPage)
  pagesFound : Nat
  stopRequested : Bool
deriving DecidableEq

/-- One handler dispatch (crawler.ts lines 47-106), applied to every event
the library delivers: `fetchcomplete` increments `pagesFound`, stores the
page, and calls `crawler.stop()` once `pagesFound >= maxPages` (recorded in
`stopRequested`; the call does not prevent further deliveries);
`fetchtimeout` stores a 408 error page and `fetcherror` a
`statusCode || 500` error page, neither touching `pagesFound` nor checking
the cap. -/
def processEvent (maxPages : Nat) (st : CrawlerState) (e : CrawlEvent) :
    CrawlerState :=
  match e with
  | .fetchComplete url statusCode title description isIndexable links =>
    let pagesFound := st.pagesFound + 1
    let page : CrawledPage :=
      { status := statusCode.getD 200, title := title,
        description := description, isIndexable := some isIndexable,
        links := some links, error := none }
    { pages := mapSet st.pages url page
      pagesFound := pagesFound
      stopRequested := st.stopRequested || decide (maxPages ≤ pagesFound) }
  | .fetchTimeout url =>
    { st with
      pages := mapSet st.pages url
        { status := 408, title := none, description := none,
          isIndexable := none, links := none, error := some true } }
  | .fetchError url statusCode =>
    { st with
      pages := mapSet st.pages url
        { status := statusCode.getD 500, title := none, description := none,
          isIndexable := none, links := none, error := some true } }

/-- Model of `crawl()` as a fold of the handler dispatch over the delivered
event sequence, starting from the empty page map. -/
def crawl (maxPages : Nat) (events : List CrawlEvent) : CrawlerState :=
  events.foldl (processEvent maxPages)
    { pages := [], pagesFound := 0, stopRequested := false }

/-- Number of `fetchcomplete` events in a delivered sequence. -/
def countFetchComplete (events : List CrawlEvent) : Nat :=
  events.countP (fun e =>
    match e with
    | .fetchComplete _ _ _ _ _ _ => true
    | _ => false)

/-- The hard-coded page cap of `crawl` (crawler.ts line 37). -/
def crawlerMaxPages : Nat := 8

/-! ## Broken link checker
(src/src/utils/technical-seo-analyzer/link-checker.ts lines 78-98) -/

/-- The response fields `checkSingleLink` inspects. -/
structure LinkResponse where
  status : Nat
  location : Option String
deriving DecidableEq

/-- The `status` field of a broken-link record: a number or a string
(the interface declares `status: number | string`). -/
inductive StatusVal where
  | num (n : Nat)
  | str (s : String)
deriving DecidableEq

/-- Broken-link record `{url, status, referer, error?}`. -/
structure BrokenData where
  url : String
  status : StatusVal
  error : Option String
  referer : String
deriving DecidableEq

/-- Redirect record of `{from, to, status, referer}` shape (`from` and `to`
are Lean keywords, hence `fromUrl`/`toUrl`); `toUrl` is the raw `Location`
header, `none` when the header is absent. -/
structure RedirectData where
  fromUrl : String
  toUrl : Option String
  status : Nat
  referer : String
deriving DecidableEq

/-- Probe classification returned by `checkSingleLink`. -/
inductive LinkCheckResult where
  | broken (d : BrokenData)
  | redirect (d : RedirectData)
  | ok
deriving DecidableEq

/-- Model of `BrokenLinkChecker.checkSingleLink` (link-checker.ts lines 78-98).
`headResp` and `getResp` model the HEAD probe and the GET fallback
(`.error` = the request threw).  The GET fallback fires only on HEAD status
405 or 501; any thrown error is caught and reported as broken with the
constant status string `Error` and the message in the separate `error`
field. -/
def checkSingleLink (headResp getResp : Except String LinkResponse)
    (link referer : String) : LinkCheckResult :=
  match headResp with
  | .error e => .broken { url := link, status := .str "Error", error := some e, referer := referer }
  | .ok r0 =>
    match (if r0.status = 405 ∨ r0.status = 501 then getResp else .ok r0) with
    | .error e => .broken { url := link, status := .str "Error", error := some e, referer := referer }
    | .ok response =>
      if 400 ≤ response.status then
        .broken { url := link, status := .num response.status, error := none, referer := referer }
      else if 300 ≤ response.status ∧ response.status < 400 then
        .redirect { fromUrl := link, toUrl := response.location,
                    status := response.status, referer := referer }
      else .ok

/-! ## Orchestrator retry loop
(`SEOAnalysisOrchestrator.withRetry`, src/src/utils/technical-seo-analyzer/index.ts
lines 511-534) -/

/-- Test of the JS regular expression `/timed out/i` against an error
message. -/
def timedOutTest (msg : String) : Bool :=
  strIncludes (strToLower msg) "timed out"

/-- The `for (attempt = 1; attempt <= maxRetries + 1; attempt++)` loop of
`withRetry`, structurally recursive on the remaining permitted attempts
(`fuel = maxRetries + 2 - attempt`; the loop guard is `fuel > 0`).
`outcome n` is the settled result of attempt `n` of
`withTimeout(operation(), timeoutMs)` (`.error` = rejection, with the
message; a deadline rejection has message `<name> timed out after <ms>ms`).
Returns the final result, the index of the last attempt performed, and the
list of backoff delays (ms) slept between attempts
(`1000 * attempt`, linear). -/
def withRetryLoop (outcome : Nat → Except String String) (maxRetries : Nat) :
    Nat → Nat → Except String String × Nat × List Nat
  | _, 0 => (.error "", 0, [])
  | attempt, fuel + 1 =>
    match outcome attempt with
    | .ok v => (.ok v, attempt, [])
    | .error e =>
      if attempt ≤ maxRetries ∧ timedOutTest e = false then
        let r := withRetryLoop outcome maxRetries (attempt + 1) fuel
        (r.1, r.2.1, 1000 * attempt :: r.2.2)
      else (.error e, attempt, [])

/-- Model of `withRetry(operation, name, maxRetries, timeoutMs)`: run the loop from
attempt 1 with `maxRetries + 1` permitted attempts. -/
def withRetry (outcome : Nat → Except String String) (maxRetries : Nat) :
    Except String String × Nat × List Nat :=
  withRetryLoop outcome maxRetries 1 (maxRetries + 1)

/-! ## Orchestrator task statuses
(src/src/utils/technical-seo-analyzer/index.ts lines 410-440) -/

/-- Model of
`type AnalysisStatus = "complete" | "failed" | "skipped" | "timed_out"`
(index.ts line 410).  The type has exactly these four values. -/
inductive AnalysisStatus where
  | complete
  | failed
  | skipped
  | timed_out
deriving DecidableEq

/-- The keys of the orchestrator's `analysisStatus` map (the seven named
sub-analyses of `AnalysisResults`, index.ts lines 400-408). -/
inductive TaskName where
  | crawl
  | brokenLinks
  | speed
  | mobile
  | validation
  | schema
  | architecture
deriving DecidableEq

/-- The `analysisStatus` object built by the `SEOAnalysisOrchestrator`
constructor (index.ts lines 431-439): every task starts as `"failed"`. -/
def initialAnalysisStatus : TaskName → AnalysisStatus
  | .crawl => .failed
  | .brokenLinks => .failed
  | .speed => .failed
  | .mobile => .failed
  | .validation => .failed
  | .schema => .failed
  | .architecture => .failed

/-- The task-status enum as the specification words it (a five-value enum
including `pending`); used only to compare the code's enum against the
specification's. -/
inductive SpecAnalysisTaskStatus where
  | pending
  | complete
  | failed
  | timed_out
  | skipped
deriving DecidableEq

/-- Embedding of the code's status values into the specification's enum. -/
def toSpecStatus : AnalysisStatus → SpecAnalysisTaskStatus
  | .complete => .complete
  | .failed => .failed
  | .skipped => .skipped
  | .timed_out => .timed_out

/-! ## Theorems -/

/-! ### Rate limiter lemmas -/

/-- Projection: `checkLimit` allows exactly when the purged list is still
below the cap. -/
theorem checkLimit_allowed_eq (W : Int) (N : Nat) (reqs : List Int) (now : Int) :
    (checkLimit W N reqs now).allowed
      = decide ((reqs.filter (fun t => now - W < t)).length < N) := by
  by_cases h : N ≤ (reqs.filter (fun t => now - W < t)).length
  · simp [checkLimit, h, Nat.not_lt.mpr h]
  · simp [checkLimit, h, Nat.lt_of_not_le h]

/-- Projection: the stored list after a `checkLimit` call is the purged list,
with `now` appended exactly on an admitted call. -/
theorem checkLimit_newRequests_eq (W : Int) (N : Nat) (reqs : List Int) (now : Int) :
    (checkLimit W N reqs now).newRequests
      = reqs.filter (fun t => now - W < t)
        ++ (if (checkLimit W N reqs now).allowed then [now] else []) := by
  by_cases h : N ≤ (reqs.filter (fun t => now - W < t)).length
  · simp [checkLimit, h]
  · simp [checkLimit, h]


/-- Unfolding of the trace count at a single call. -/
theorem admittedInWindow_cons (s W now : Int) (a : Bool) (tr : List (Int × Bool)) :
    admittedInWindow s W ((now, a) :: tr)
      = admittedInWindow s W tr
        + (if a && decide (s < now) && decide (now ≤ s + W) then 1 else 0) := by
  simp [admittedInWindow, List.countP_cons]

/-- Calls strictly after the window admit nothing inside it. -/
theorem admittedInWindow_out (s W : Int) (N : Nat) :
    ∀ (calls : List Int) (state : List Int),
    (∀ c ∈ calls, s + W < c) →
    admittedInWindow s W (runChecks W N state calls) = 0 := by
  intro calls
  induction calls with
  | nil => intro state _; simp [runChecks, admittedInWindow]
  | cons now rest ih =>
    intro state h
    have hnow : s + W < now := h now (by simp)
    have hrest : ∀ c ∈ rest, s + W < c := fun c hc => h c (by simp [hc])
    have hz := ih ((checkLimit W N state now).newRequests) hrest
    have hrun : runChecks W N state (now :: rest)
        = (now, (checkLimit W N state now).allowed)
          :: runChecks W N (checkLimit W N state now).newRequests rest := rfl
    rw [hrun, admittedInWindow_cons, hz]
    have h1 : decide (now ≤ s + W) = false := by
      simp [Int.not_le.mpr hnow]
    simp [h1]

/-- Purging with `now - W` does not change how many stored timestamps lie in
a window `(s, s + W]` that still contains `now`. -/
theorem countP_inWindow_filter (s W now : Int) (hnow : now ≤ s + W)
    (state : List Int) :
    ((state.filter (fun t => now - W < t)).countP
        (fun t => decide (s < t) && decide (t ≤ s + W)))
      = state.countP (fun t => decide (s < t) && decide (t ≤ s + W)) := by
  induction state with
  | nil => simp
  | cons t ts ih =>
    by_cases h1 : now - W < t
    · simp [List.filter_cons, h1, List.countP_cons, ih]
    · have h2 : ¬ s < t := by omega
      simp [List.filter_cons, h1, List.countP_cons, ih, h2]

/-- Invariant form of the sliding-window bound: over any nondecreasing call
sequence, the admitted calls inside `(s, s + W]` plus the (capped) count of
in-window stored timestamps stay within the cap. -/
theorem runChecks_window_bound (W : Int) (N : Nat) (s : Int) :
    ∀ (calls : List Int), calls.Pairwise (· ≤ ·) →
    ∀ state : List Int,
    admittedInWindow s W (runChecks W N state calls)
      + min N (state.countP (fun t => decide (s < t) && decide (t ≤ s + W))) ≤ N := by
  intro calls
  induction calls with
  | nil =>
    intro _ state
    simp only [runChecks, admittedInWindow, List.countP_nil, Nat.zero_add]
    exact Nat.min_le_left _ _
  | cons now rest ih =>
    intro hpair state
    have hrest : rest.Pairwise (· ≤ ·) := hpair.of_cons
    have hhead : ∀ c ∈ rest, now ≤ c := (List.pairwise_cons.mp hpair).1
    have hrun : runChecks W N state (now :: rest)
        = (now, (checkLimit W N state now).allowed)
          :: runChecks W N (checkLimit W N state now).newRequests rest := rfl
    rw [hrun, admittedInWindow_cons]
    by_cases hnow : now ≤ s + W
    · -- the call is not past the window
      have hcnt := countP_inWindow_filter s W now hnow state
      by_cases hdeny : N ≤ (state.filter (fun t => now - W < t)).length
      · -- denied: nothing recorded, state becomes the purged list
        have hall : (checkLimit W N state now).allowed = false := by
          rw [checkLimit_allowed_eq]
          simp [Nat.not_lt.mpr hdeny]
        have hnew : (checkLimit W N state now).newRequests
            = state.filter (fun t => now - W < t) := by
          rw [checkLimit_newRequests_eq, hall]
          simp
        have hbig := ih hrest (state.filter (fun t => now - W < t))
        rw [hcnt] at hbig
        rw [hall, hnew]
        simpa using hbig
      · -- admitted: `now` is recorded
        have hlt : (state.filter (fun t => now - W < t)).length < N :=
          Nat.lt_of_not_le hdeny
        have hall : (checkLimit W N state now).allowed = true := by
          rw [checkLimit_allowed_eq]; simp [hlt]
        have hnew : (checkLimit W N state now).newRequests
            = state.filter (fun t => now - W < t) ++ [now] := by
          rw [checkLimit_newRequests_eq, hall]; simp
        have hcle : state.countP (fun t => decide (s < t) && decide (t ≤ s + W))
            < N := by
          calc state.countP (fun t => decide (s < t) && decide (t ≤ s + W))
              = (state.filter (fun t => now - W < t)).countP
                  (fun t => decide (s < t) && decide (t ≤ s + W)) := hcnt.symm
            _ ≤ (state.filter (fun t => now - W < t)).length :=
                List.countP_le_length _
            _ < N := hlt
        have hbig := ih hrest (state.filter (fun t => now - W < t) ++ [now])
        rw [List.countP_append, hcnt] at hbig
        rw [hall, hnew]
        by_cases hin : s < now
        · have hp : (decide (s < now) && decide (now ≤ s + W)) = true := by
            simp [hin, hnow]
          rw [show (List.countP (fun t => decide (s < t) && decide (t ≤ s + W))
            [now]) = 1 by simp [List.countP_cons, hin, hnow]] at hbig
          have hmin1 : min N (state.countP
              (fun t => decide (s < t) && decide (t ≤ s + W)) + 1)
              = state.countP (fun t => decide (s < t) && decide (t ≤ s + W)) + 1 :=
            Nat.min_eq_right (by omega)
          rw [hmin1] at hbig
          have hmin2 : min N (state.countP
              (fun t => decide (s < t) && decide (t ≤ s + W)))
              ≤ state.countP (fun t => decide (s < t) && decide (t ≤ s + W)) :=
            Nat.min_le_right _ _
          have hgoal : (true && decide (s < now) && decide (now ≤ s + W)) = true := by
            simp [hin, hnow]
          rw [hgoal, if_pos rfl]
          omega
        · have hp : (decide (s < now) && decide (now ≤ s + W)) = false := by
            simp [hin]
          rw [show (List.countP (fun t => decide (s < t) && decide (t ≤ s + W))
            [now]) = 0 by simp [List.countP_cons, hin]] at hbig
          have hgoal : (true && decide (s < now) && decide (now ≤ s + W)) = false := by
            simp [hin]
          rw [hgoal, if_neg (by simp : ¬ (false = true))]
          omega
    · -- the call is past the window: nothing later can land inside it
      have hlater : ∀ c ∈ rest, s + W < c := fun c hc =>
        lt_of_lt_of_le (Int.not_le.mp hnow) (hhead c hc)
      have hz := admittedInWindow_out s W N rest
        (checkLimit W N state now).newRequests hlater
      rw [hz]
      have h1 : decide (now ≤ s + W) = false := by simp [hnow]
      have hgoal : ((checkLimit W N state now).allowed && decide (s < now)
          && decide (now ≤ s + W)) = false := by
        simp [h1]
      rw [hgoal, if_neg (by simp : ¬ (false = true))]
      simpa using Nat.min_le_left N _

/-- C3: for every identity and every (chronologically ordered, i.e.
nondecreasing) sequence of `checkLimit` call times, at most `N`
(`maxRequests`) calls are admitted within any sliding window `(s, s + W]`
of duration `W` (`windowMs`), including bursts exactly at window
boundaries; moreover on each check the stored timestamps not newer than
`now - W` are purged before the decision, and an admitted call (and only
an admitted call) records the current time. -/
theorem rateLimiter_sliding_window (W : Int) (N : Nat) (calls : List Int)
    (s : Int) (state : List Int) (now : Int)
    (hmono : calls.Pairwise (· ≤ ·)) :
    admittedInWindow s W (runChecks W N [] calls) ≤ N
    ∧ (checkLimit W N state now).newRequests
        = state.filter (fun t => now - W < t)
          ++ (if (checkLimit W N state now).allowed then [now] else []) := by
  constructor
  · have h := runChecks_window_bound W N s calls hmono []
    simpa using h
  · exact checkLimit_newRequests_eq W N state now

/-- Witness for C3: window 10 ms, cap 2, a burst of five calls; exactly two
are admitted in the window `(0, 10]`, and a concrete call purges and
records as stated. -/
theorem rateLimiter_sliding_window_witness :
    admittedInWindow 0 10 (runChecks 10 2 [] [0, 1, 5, 9, 10]) ≤ 2
    ∧ (checkLimit 10 2 [2, 5] 11).newRequests
        = ([2, 5] : List Int).filter (fun t => (11 : Int) - 10 < t)
          ++ (if (checkLimit 10 2 [2, 5] 11).allowed then [(11 : Int)] else []) :=
  rateLimiter_sliding_window 10 2 [0, 1, 5, 9, 10] 0 [2, 5] 11 (by decide)

/-! ### SSRF guard theorems -/

/-- Counterexample to C4: a URL whose hostname resolution fails is
rejected, not allowed.  `isSafeHost` returns `false` from its `catch` when
`dns.resolve4` rejects, so the guard fails closed; the claim that the host
check returns `true` on resolution failure is false on this input. -/
theorem isSafeHost_dns_failure_counterexample :
    isSafeHost (fun _ => some "unresolved.example") (fun _ => none)
      "http://unresolved.example/" = false := by
  decide

/-- C4 (amended): for every URL whose hostname resolution fails, the SSRF
guard fails closed: the host check returns `false` (the URL is blocked), so
DNS resolution failure by itself always rejects a URL.  (Only IPv4
`dns.resolve4` is ever consulted; no second address family is tried.) -/
theorem isSafeHost_dns_failure_rejects
    (parseHostname : String → Option String)
    (resolve4 : String → Option (List String)) (url hostname : String)
    (hparse : parseHostname url = some hostname)
    (hdns : resolve4 hostname = none) :
    isSafeHost parseHostname resolve4 url = false := by
  simp [isSafeHost, hparse, hdns]

/-- Witness for C4 (amended) at a concrete parser and failing resolver. -/
theorem isSafeHost_dns_failure_rejects_witness :
    isSafeHost (fun _ => some "flaky.example") (fun _ => none)
      "http://flaky.example/" = false :=
  isSafeHost_dns_failure_rejects (fun _ => some "flaky.example")
    (fun _ => none) "http://flaky.example/" "flaky.example" rfl rfl

/-- C5: the SSRF host check rejects `http://127.0.0.1/`, `http://10.1.2.3/`
and `http://192.168.0.5:8080/` (loopback and RFC1918 hosts), and accepts
`https://example.com/` when that name resolves to public addresses only.
The hypotheses pin down the external URL parser and DNS resolver on these
four inputs: a literal-IP hostname either fails to resolve as a DNS name or
resolves to itself — the check rejects in both cases (resolution failure
hits the fail-closed `catch`; a resolved private address fails the private
range regular expression test). -/
theorem ssrfCheck_blocks_private_allows_public
    (parseHostname : String → Option String)
    (resolve4 : String → Option (List String)) (publicIps : List String)
    (h1 : parseHostname "http://127.0.0.1/" = some "127.0.0.1")
    (h2 : resolve4 "127.0.0.1" = none ∨ resolve4 "127.0.0.1" = some ["127.0.0.1"])
    (h3 : parseHostname "http://10.1.2.3/" = some "10.1.2.3")
    (h4 : resolve4 "10.1.2.3" = none ∨ resolve4 "10.1.2.3" = some ["10.1.2.3"])
    (h5 : parseHostname "http://192.168.0.5:8080/" = some "192.168.0.5")
    (h6 : resolve4 "192.168.0.5" = none ∨ resolve4 "192.168.0.5" = some ["192.168.0.5"])
    (h7 : parseHostname "https://example.com/" = some "example.com")
    (h8 : resolve4 "example.com" = some publicIps)
    (h9 : publicIps.all (fun ip => ! privateIpRegexTest ip) = true) :
    isSafeHost parseHostname resolve4 "http://127.0.0.1/" = false
    ∧ isSafeHost parseHostname resolve4 "http://10.1.2.3/" = false
    ∧ isSafeHost parseHostname resolve4 "http://192.168.0.5:8080/" = false
    ∧ isSafeHost parseHostname resolve4 "https://example.com/" = true := by
  refine ⟨?_, ?_, ?_, ?_⟩
  · rcases h2 with h | h <;> simp [isSafeHost, h1, h] <;> decide
  · rcases h4 with h | h <;> simp [isSafeHost, h3, h] <;> decide
  · rcases h6 with h | h <;> simp [isSafeHost, h5, h] <;> decide
  · simp [isSafeHost, h7, h8, h9]

/-- Witness for C5 at a concrete parser and resolver (the resolver answers
the IP literals with themselves and `example.com` with a public address). -/
theorem ssrfCheck_blocks_private_allows_public_witness :
    isSafeHost
        (fun u => if u = "http://127.0.0.1/" then some "127.0.0.1"
          else if u = "http://10.1.2.3/" then some "10.1.2.3"
          else if u = "http://192.168.0.5:8080/" then some "192.168.0.5"
          else if u = "https://example.com/" then some "example.com" else none)
        (fun h => if h = "example.com" then some ["93.184.216.34"] else some [h])
        "http://127.0.0.1/" = false
    ∧ isSafeHost
        (fun u => if u = "http://127.0.0.1/" then some "127.0.0.1"
          else if u = "http://10.1.2.3/" then some "10.1.2.3"
          else if u = "http://192.168.0.5:8080/" then some "192.168.0.5"
          else if u = "https://example.com/" then some "example.com" else none)
        (fun h => if h = "example.com" then some ["93.184.216.34"] else some [h])
        "http://10.1.2.3/" = false
    ∧ isSafeHost
        (fun u => if u = "http://127.0.0.1/" then some "127.0.0.1"
          else if u = "http://10.1.2.3/" then some "10.1.2.3"
          else if u = "http://192.168.0.5:8080/" then some "192.168.0.5"
          else if u = "https://example.com/" then some "example.com" else none)
        (fun h => if h = "example.com" then some ["93.184.216.34"] else some [h])
        "http://192.168.0.5:8080/" = false
    ∧ isSafeHost
        (fun u => if u = "http://127.0.0.1/" then some "127.0.0.1"
          else if u = "http://10.1.2.3/" then some "10.1.2.3"
          else if u = "http://192.168.0.5:8080/" then some "192.168.0.5"
          else if u = "https://example.com/" then some "example.com" else none)
        (fun h => if h = "example.com" then some ["93.184.216.34"] else some [h])
        "https://example.com/" = true :=
  ssrfCheck_blocks_private_allows_public
    (fun u => if u = "http://127.0.0.1/" then some "127.0.0.1"
      else if u = "http://10.1.2.3/" then some "10.1.2.3"
      else if u = "http://192.168.0.5:8080/" then some "192.168.0.5"
      else if u = "https://example.com/" then some "example.com" else none)
    (fun h => if h = "example.com" then some ["93.184.216.34"] else some [h])
    ["93.184.216.34"]
    (by decide) (Or.inr (by decide)) (by decide) (Or.inr (by decide))
    (by decide) (Or.inr (by decide)) (by decide) (by decide) (by decide)

/-- C10: for every request URL, the `PRIVATE_NETWORK_BLOCKED` branch of
`handleRedirectCheck` is unreachable.  The private-IP test calls
`ssrfCheck.isPrivateIP`, which is not a member of the `ssrfCheck` object;
the resulting `TypeError` is swallowed by the enclosing `catch`, so
`isPrivate` stays `false` for every URL, every parser behavior, and every
implementation the missing method could have had — a URL with a literal
private IPv4 host is never rejected with `PRIVATE_NETWORK_BLOCKED`. -/
theorem handleRedirectCheck_isPrivate_always_false
    (parseHostname : String → Option String)
    (isPrivateIPImpl : String → Bool) (url : String) :
    computeIsPrivate parseHostname isPrivateIPImpl url = false := by
  unfold computeIsPrivate
  cases parseHostname url with
  | none => rfl
  | some hostname =>
    simp only [callBoolMember, ssrfCheckMembers]
    have : ("isPrivateIP" ∈ (["isValidHttpUrl", "isSafeHost"] : List String))
        = False := by decide
    simp [this]

/-! ### Redirect chain theorems -/

/-- Each `checkLoop` call with `fuel` permitted iterations returns at most
`fuel + 1` hops (the `+ 1` is the extra error entry pushed when URL
resolution throws after a hop was already recorded). -/
theorem checkLoop_length_le (env : RedirectEnv) :
    ∀ (fuel : Nat) (u : String), (checkLoop env fuel u).length ≤ fuel + 1 := by
  intro fuel
  induction fuel with
  | zero => intro u; simp [checkLoop]
  | succ f ih =>
    intro u
    simp only [checkLoop]
    repeat' split
    all_goals
      try simp only [List.length_cons, List.length_nil]
    all_goals
      first
        | omega
        | exact Nat.add_le_add_right (ih _) 1

/-- A list always contains the element `pushUnique` was asked to add. -/
theorem mem_pushUnique (l : List String) (x : String) : x ∈ pushUnique l x := by
  unfold pushUnique
  split
  · assumption
  · simp

/-- Whenever a normalized URL (fragment stripped) repeats anywhere in a
chain, `analyzeRedirectChain` flags `redirect-loop`. -/
theorem analyzeRedirectChain_flags_loop (extractDomain : String → String)
    (suspiciousDomains : List String) (maxRedirectsEnv : Nat)
    (chain : List RedirectResult)
    (h : hasLoop (normalizedChainUrls chain) = true) :
    "redirect-loop" ∈ (analyzeRedirectChain extractDomain suspiciousDomains
      maxRedirectsEnv chain).seoIssues := by
  unfold analyzeRedirectChain
  simp only [h]
  split
  · split
    · refine List.mem_append_left _ (List.mem_append_left _ ?_)
      exact mem_pushUnique _ _
    · exact List.mem_append_left _ (mem_pushUnique _ _)
  · split
    · exact List.mem_append_left _ (mem_pushUnique _ _)
    · exact mem_pushUnique _ _

/-- A server serving a four-hop 301 chain
(`/1 → /2 → /3 → /4 → /5`), used against `maxRedirects = 3`. -/
def chainEnvFour : RedirectEnv :=
  { server := fun u =>
      if u = "http://a.example/1" then
        .ok { status := 301, location := some "http://a.example/2",
              contentType := none, body := "" }
      else if u = "http://a.example/2" then
        .ok { status := 301, location := some "http://a.example/3",
              contentType := none, body := "" }
      else if u = "http://a.example/3" then
        .ok { status := 301, location := some "http://a.example/4",
              contentType := none, body := "" }
      else if u = "http://a.example/4" then
        .ok { status := 301, location := some "http://a.example/5",
              contentType := none, body := "" }
      else
        .ok { status := 200, location := none,
              contentType := some "text/html", body := "" }
    resolveUrl := fun rel _ => .ok rel
    metaRefreshUrl := fun _ _ => .ok none }

/-- Counterexample to C1: with `maxRedirects = 3` against a chain of four
redirecting hops, `check` returns a 4-hop chain that is cut off at the hop
cap, yet nothing marks it: the `RedirectResult` interface has no truncation
field, the chain analysis reports no security issue at all, and
`too-many-redirects` is absent (it would require more than the module-level
`MAX_REDIRECTS = 20` redirects, not more than the configured
`maxRedirects`).  The claim that such a chain is marked
truncated/too-many-redirects is therefore false. -/
theorem check_hop_cap_no_flag_counterexample :
    (check chainEnvFour 3 "http://a.example/1").length = 4
    ∧ (analyzeRedirectChain (fun _ => "a.example") [] 20
        (check chainEnvFour 3 "http://a.example/1")).securityIssues = []
    ∧ (analyzeRedirectChain (fun _ => "a.example") [] 20
        (check chainEnvFour 3 "http://a.example/1")).seoIssues
      = ["multiple-redirects"] := by
  exact ⟨by decide, by decide, by decide⟩

/-- C1 (amended): the chain returned by `RedirectChecker.check` has at most
`maxRedirects + 2` entries (at most `maxRedirects + 1` fetched hops, plus
possibly one resolution-error entry); a chain cut off at the hop cap
carries no truncation marker: with `maxRedirects = 3` and a server chain of
4 redirecting hops the resolver returns the 4-hop chain silently, and the
chain analysis flags `too-many-redirects` only when the redirect count
exceeds the module-level `MAX_REDIRECTS` (default 20), never the
configured per-request cap. -/
theorem check_hop_cap_bound_amended :
    (∀ (env : RedirectEnv) (maxRedirects : Nat) (url : String),
      (check env maxRedirects url).length ≤ maxRedirects + 2)
    ∧ (check chainEnvFour 3 "http://a.example/1").length = 4
    ∧ "too-many-redirects" ∉ (analyzeRedirectChain (fun _ => "a.example") [] 20
        (check chainEnvFour 3 "http://a.example/1")).securityIssues := by
  refine ⟨?_, by decide, by decide⟩
  intro env maxRedirects url
  have h := checkLoop_length_le env (maxRedirects + 1) url
  simpa [check] using h

/-- A server with a two-URL redirect cycle (`/a → /b → /a → …`). -/
def chainEnvLoop : RedirectEnv :=
  { server := fun u =>
      if u = "http://l.example/a" then
        .ok { status := 302, location := some "http://l.example/b",
              contentType := none, body := "" }
      else
        .ok { status := 302, location := some "http://l.example/a",
              contentType := none, body := "" }
    resolveUrl := fun rel _ => .ok rel
    metaRefreshUrl := fun _ _ => .ok none }

/-- Counterexample to C2: resolution does not stop when a normalized URL
reappears.  In a two-URL cycle with `maxRedirects = 5`, the second
occurrence of the repeated URL is at position 3 of the chain, yet `check`
keeps following the cycle to the hop cap and returns 6 hops — the chain is
not truncated at the second occurrence. -/
theorem check_no_cycle_truncation_counterexample :
    normalizedChainUrls (check chainEnvLoop 5 "http://l.example/a")
      = ["http://l.example/a", "http://l.example/b", "http://l.example/a",
         "http://l.example/b", "http://l.example/a", "http://l.example/b"]
    ∧ (check chainEnvLoop 5 "http://l.example/a").length = 6 := by
  exact ⟨by decide, by decide⟩

/-- C2 (amended): for every redirect chain containing the same URL twice
after normalization (fragment stripped), the analysis always flags
`redirect-loop`; the resolution itself, however, has no cycle detection —
it keeps following the loop until a non-redirecting response or the hop
cap, as the concrete cycle that yields 6 hops under `maxRedirects = 5`
shows. -/
theorem analyzeRedirectChain_loop_flag_amended
    (extractDomain : String → String) (suspiciousDomains : List String)
    (maxRedirectsEnv : Nat) (chain : List RedirectResult)
    (h : hasLoop (normalizedChainUrls chain) = true) :
    "redirect-loop" ∈ (analyzeRedirectChain extractDomain suspiciousDomains
      maxRedirectsEnv chain).seoIssues
    ∧ (check chainEnvLoop 5 "http://l.example/a").length = 6 :=
  ⟨analyzeRedirectChain_flags_loop extractDomain suspiciousDomains
    maxRedirectsEnv chain h, by decide⟩

/-- Witness for C2 (amended) on the concrete cycling chain. -/
theorem analyzeRedirectChain_loop_flag_amended_witness :
    "redirect-loop" ∈ (analyzeRedirectChain (fun _ => "l.example") [] 20
      (check chainEnvLoop 5 "http://l.example/a")).seoIssues
    ∧ (check chainEnvLoop 5 "http://l.example/a").length = 6 :=
  analyzeRedirectChain_loop_flag_amended (fun _ => "l.example") [] 20
    (check chainEnvLoop 5 "http://l.example/a") (by decide)

/-! ### Crawler theorems -/

/-- The success counter after any delivered event sequence is exactly the
starting counter plus the number of `fetchcomplete` events delivered: the
handlers process every delivered event, stop or no stop. -/
theorem crawl_pagesFound_eq (maxPages : Nat) :
    ∀ (events : List CrawlEvent) (st : CrawlerState),
    (events.foldl (processEvent maxPages) st).pagesFound
      = st.pagesFound + countFetchComplete events := by
  intro events
  induction events with
  | nil => intro st; simp [countFetchComplete]
  | cons e rest ih =>
    intro st
    simp only [List.foldl_cons]
    rw [ih]
    cases e with
    | fetchComplete url statusCode title description isIndexable links =>
      simp [processEvent, countFetchComplete, List.countP_cons]
      omega
    | fetchTimeout url =>
      simp [processEvent, countFetchComplete, List.countP_cons]
    | fetchError url statusCode =>
      simp [processEvent, countFetchComplete, List.countP_cons]

/-- From any state in which a not-yet-requested stop implies the counter is
below the cap, `crawler.stop()` has been called after a delivered event
sequence exactly when the final counter has reached the cap. -/
theorem crawl_stopRequested_eq (maxPages : Nat) :
    ∀ (events : List CrawlEvent) (st : CrawlerState),
    (st.stopRequested = false → st.pagesFound < maxPages) →
    (events.foldl (processEvent maxPages) st).stopRequested
      = (st.stopRequested
          || decide (maxPages ≤ st.pagesFound + countFetchComplete events)) := by
  intro events
  induction events with
  | nil =>
    intro st hinv
    simp only [List.foldl_nil, countFetchComplete, List.countP_nil,
      Nat.add_zero]
    cases hsr : st.stopRequested
    · have hlt := hinv hsr
      simp [Nat.not_le.mpr hlt]
    · simp
  | cons e rest ih =>
    intro st hinv
    simp only [List.foldl_cons]
    cases e with
    | fetchComplete url statusCode title description isIndexable links =>
      rw [ih (processEvent maxPages st
        (.fetchComplete url statusCode title description isIndexable links))
        (by
          intro h
          simp only [processEvent, Bool.or_eq_false_iff,
            decide_eq_false_iff_not, Nat.not_le] at h
          simp only [processEvent]
          omega)]
      simp only [processEvent, countFetchComplete, List.countP_cons]
      by_cases h1 : maxPages ≤ st.pagesFound + 1
      · have h2 : maxPages ≤ st.pagesFound
            + (List.countP (fun e =>
                match e with
                | CrawlEvent.fetchComplete _ _ _ _ _ _ => true
                | _ => false) rest + 1) := by omega
        have h3 : maxPages ≤ st.pagesFound + 1
            + List.countP (fun e =>
                match e with
                | CrawlEvent.fetchComplete _ _ _ _ _ _ => true
                | _ => false) rest := by omega
        simp [h1, h2, h3]
      · have h4 : st.pagesFound + 1
            + List.countP (fun e =>
                match e with
                | CrawlEvent.fetchComplete _ _ _ _ _ _ => true
                | _ => false) rest
            = st.pagesFound
            + (List.countP (fun e =>
                match e with
                | CrawlEvent.fetchComplete _ _ _ _ _ _ => true
                | _ => false) rest + 1) := by omega
        simp only [h1, decide_false_eq_false, Bool.or_false, h4]
        simp
    | fetchTimeout url =>
      rw [ih (processEvent maxPages st (.fetchTimeout url))
        (by
          intro h
          simp only [processEvent] at h ⊢
          exact hinv h)]
      simp [processEvent, countFetchComplete, List.countP_cons]
    | fetchError url statusCode =>
      rw [ih (processEvent maxPages st (.fetchError url statusCode))
        (by
          intro h
          simp only [processEvent] at h ⊢
          exact hinv h)]
      simp [processEvent, countFetchComplete, List.countP_cons]

/-- Nine `fetchtimeout` events on distinct URLs. -/
def nineTimeoutEvents : List CrawlEvent :=
  [.fetchTimeout "http://s.example/1", .fetchTimeout "http://s.example/2",
   .fetchTimeout "http://s.example/3", .fetchTimeout "http://s.example/4",
   .fetchTimeout "http://s.example/5", .fetchTimeout "http://s.example/6",
   .fetchTimeout "http://s.example/7", .fetchTimeout "http://s.example/8",
   .fetchTimeout "http://s.example/9"]

/-- Counterexample to C6: nine timed-out fetches on distinct URLs leave
nine pages in the map — one more than the `maxPages = 8` cap — because the
`fetchtimeout`/`fetcherror` handlers store error pages without touching the
`pagesFound` counter or checking the cap.  (The crawl method also takes no
`maxDepth`/`maxPages` parameters at all: both caps are hard-coded.) -/
theorem crawl_maxPages_counterexample :
    (crawl crawlerMaxPages nineTimeoutEvents).pages.length = 9 := by
  decide

/-- Nine `fetchcomplete` events on distinct URLs — realizable with the
source's `maxConcurrency = 6`, since a bare `crawler.stop()` lets requests
already in flight complete and fire `fetchcomplete`. -/
def nineFetchCompleteEvents : List CrawlEvent :=
  [.fetchComplete "http://t.example/1" (some 200) none none true [],
   .fetchComplete "http://t.example/2" (some 200) none none true [],
   .fetchComplete "http://t.example/3" (some 200) none none true [],
   .fetchComplete "http://t.example/4" (some 200) none none true [],
   .fetchComplete "http://t.example/5" (some 200) none none true [],
   .fetchComplete "http://t.example/6" (some 200) none none true [],
   .fetchComplete "http://t.example/7" (some 200) none none true [],
   .fetchComplete "http://t.example/8" (some 200) none none true [],
   .fetchComplete "http://t.example/9" (some 200) none none true []]

/-- C6 (amended): the crawl code enforces no bound of its own on the
returned page map.  `pagesFound` always equals the number of delivered
`fetchcomplete` events (the handlers run on every delivered event — a bare
`crawler.stop()` does not abort fetches already in flight, which still
fire `fetchcomplete`); timeout/error pages are stored without being
counted; and the map exceeds the hard-coded `maxPages = 8` both via nine
timeout events and via nine delivered `fetchcomplete` events.  The only
cap-related guarantee the code gives is that `crawler.stop()` has been
called exactly when at least 8 `fetchcomplete` events have been processed;
how many in-flight events arrive after that, and all depth bounding
(`maxDepth = 2`), are the crawler library's affair. -/
theorem crawl_page_cap_amended :
    (∀ events : List CrawlEvent,
      (crawl crawlerMaxPages events).pagesFound = countFetchComplete events)
    ∧ (∀ events : List CrawlEvent,
      (crawl crawlerMaxPages events).stopRequested
        = decide (crawlerMaxPages ≤ countFetchComplete events))
    ∧ (crawl crawlerMaxPages nineFetchCompleteEvents).pagesFound = 9
    ∧ (crawl crawlerMaxPages nineFetchCompleteEvents).pages.length = 9
    ∧ (crawl crawlerMaxPages nineTimeoutEvents).pages.length = 9 := by
  refine ⟨?_, ?_, by decide, by decide, by decide⟩
  · intro events
    have h := crawl_pagesFound_eq crawlerMaxPages events
      { pages := [], pagesFound := 0, stopRequested := false }
    simpa [crawl] using h
  · intro events
    have h := crawl_stopRequested_eq crawlerMaxPages events
      { pages := [], pagesFound := 0, stopRequested := false }
      (by intro _; decide)
    simpa [crawl] using h

/-! ### Broken link checker theorems -/

/-- Counterexample to C7: a 300 response with no `Location` header is
classified as a redirect (with an absent target) rather than "neither
broken nor redirect", and a fetch exception is recorded as broken with the
constant status string `Error` — the thrown message lands in the separate
`error` field, not in `status`. -/
theorem checkSingleLink_counterexample :
    checkSingleLink (.ok { status := 300, location := none })
        (.ok { status := 300, location := none })
        "http://x.example/p" "http://x.example/"
      = .redirect { fromUrl := "http://x.example/p", toUrl := none,
                    status := 300, referer := "http://x.example/" }
    ∧ checkSingleLink (.error "socket hang up")
        (.ok { status := 200, location := none })
        "http://y.example/p" "http://y.example/"
      = .broken { url := "http://y.example/p", status := .str "Error",
                  error := some "socket hang up",
                  referer := "http://y.example/" } := by
  exact ⟨by decide, by decide⟩

/-- C7 (amended): the probe classification is — status ≥ 400 (other than
the HEAD-fallback statuses 405/501) → broken recording that numeric
status; status 300-399 → redirect recording the raw `Location` header
(absent when the header is missing, with no header requirement); status
< 300 → neither; a fetch exception → broken with the constant status
string `Error` and the error text in the separate `error` field. -/
theorem checkSingleLink_classification_amended
    (getResp : Except String LinkResponse) (link referer e : String)
    (r : LinkResponse) :
    (400 ≤ r.status → r.status ≠ 405 → r.status ≠ 501 →
      checkSingleLink (.ok r) getResp link referer
        = .broken { url := link, status := .num r.status, error := none,
                    referer := referer })
    ∧ (300 ≤ r.status → r.status < 400 →
      checkSingleLink (.ok r) getResp link referer
        = .redirect { fromUrl := link, toUrl := r.location,
                      status := r.status, referer := referer })
    ∧ (r.status < 300 →
      checkSingleLink (.ok r) getResp link referer = .ok)
    ∧ checkSingleLink (.error e) getResp link referer
        = .broken { url := link, status := .str "Error", error := some e,
                    referer := referer } := by
  refine ⟨?_, ?_, ?_, ?_⟩
  · intro h4 h405 h501
    have hf : ¬ (r.status = 405 ∨ r.status = 501) := by omega
    simp [checkSingleLink, hf, h4]
  · intro h3 h3b
    have hf : ¬ (r.status = 405 ∨ r.status = 501) := by omega
    have h4 : ¬ 400 ≤ r.status := by omega
    simp [checkSingleLink, hf, h4, h3, h3b]
  · intro hlt
    have hf : ¬ (r.status = 405 ∨ r.status = 501) := by omega
    have h4 : ¬ 400 ≤ r.status := by omega
    have h3 : ¬ (300 ≤ r.status ∧ r.status < 400) := by omega
    simp [checkSingleLink, hf, h4, h3]
  · simp [checkSingleLink]

/-- Witness for C7 (amended) at a 404, a 301 with a target, a 200, and a
thrown request. -/
theorem checkSingleLink_classification_amended_witness :
    checkSingleLink (.ok { status := 404, location := none })
        (.ok { status := 404, location := none }) "l" "r"
      = .broken { url := "l", status := .num 404, error := none, referer := "r" }
    ∧ checkSingleLink (.ok { status := 301, location := some "t" })
        (.ok { status := 301, location := some "t" }) "l" "r"
      = .redirect { fromUrl := "l", toUrl := some "t", status := 301, referer := "r" }
    ∧ checkSingleLink (.ok { status := 200, location := none })
        (.ok { status := 200, location := none }) "l" "r" = .ok
    ∧ checkSingleLink (.error "boom")
        (.ok { status := 200, location := none }) "l" "r"
      = .broken { url := "l", status := .str "Error", error := some "boom",
                  referer := "r" } := by
  refine ⟨?_, ?_, ?_, ?_⟩
  · exact (checkSingleLink_classification_amended
      (.ok { status := 404, location := none }) "l" "r" "boom"
      { status := 404, location := none }).1 (by decide) (by decide) (by decide)
  · exact ((checkSingleLink_classification_amended
      (.ok { status := 301, location := some "t" }) "l" "r" "boom"
      { status := 301, location := some "t" }).2).1 (by decide) (by decide)
  · exact (((checkSingleLink_classification_amended
      (.ok { status := 200, location := none }) "l" "r" "boom"
      { status := 200, location := none }).2).2).1 (by decide)
  · exact (((checkSingleLink_classification_amended
      (.ok { status := 200, location := none }) "l" "r" "boom"
      { status := 200, location := none }).2).2).2

/-! ### Orchestrator retry theorems -/

/-- Invariant of the retry loop under the call pattern of `withRetry`
(`attempt + fuel = maxRetries + 2`): the last attempt performed lies
between the starting attempt (when the loop runs at all) and
`maxRetries + 1`, and the backoff delays slept are exactly
`1000 * attempt` for the attempts that were followed by a retry. -/
theorem withRetryLoop_props (outcome : Nat → Except String String)
    (maxRetries : Nat) :
    ∀ (fuel attempt : Nat), 1 ≤ attempt →
    attempt + fuel = maxRetries + 2 →
    (1 ≤ fuel → attempt ≤ (withRetryLoop outcome maxRetries attempt fuel).2.1)
    ∧ (withRetryLoop outcome maxRetries attempt fuel).2.1 ≤ maxRetries + 1
    ∧ (withRetryLoop outcome maxRetries attempt fuel).2.2
      = (List.range' attempt
          ((withRetryLoop outcome maxRetries attempt fuel).2.1 - attempt)).map
            (fun i => 1000 * i) := by
  intro fuel
  induction fuel with
  | zero =>
    intro attempt h1 hsum
    refine ⟨by omega, ?_, ?_⟩
    · simp [withRetryLoop]
    · simp [withRetryLoop]
  | succ f ih =>
    intro attempt h1 hsum
    cases hout : outcome attempt with
    | ok v =>
      refine ⟨fun _ => ?_, ?_, ?_⟩
      · simp only [withRetryLoop, hout]
        exact le_refl _
      · simp only [withRetryLoop, hout]
        omega
      · simp only [withRetryLoop, hout]
        simp
    | error e =>
      by_cases hc : attempt ≤ maxRetries ∧ timedOutTest e = false
      · have hf : 1 ≤ f := by omega
        have hrec := ih (attempt + 1) (by omega) (by omega)
        have hge := hrec.1 hf
        refine ⟨fun _ => ?_, ?_, ?_⟩
        · simp only [withRetryLoop, hout, if_pos hc]
          omega
        · simp only [withRetryLoop, hout, if_pos hc]
          exact hrec.2.1
        · simp only [withRetryLoop, hout, if_pos hc]
          rw [hrec.2.2]
          have hn : (withRetryLoop outcome maxRetries (attempt + 1) f).2.1 - attempt
              = ((withRetryLoop outcome maxRetries (attempt + 1) f).2.1
                  - (attempt + 1)) + 1 := by omega
          rw [hn, List.range'_succ, List.map_cons]
      · refine ⟨fun _ => ?_, ?_, ?_⟩
        · simp only [withRetryLoop, hout, if_neg hc]
          exact le_refl _
        · simp only [withRetryLoop, hout, if_neg hc]
          omega
        · simp only [withRetryLoop, hout, if_neg hc]
          simp

/-- C8: every orchestrated task wrapped in `withRetry` is attempted at most
`maxRetries + 1` times, with a linear backoff slept between consecutive
attempts (`1000 * attempt` ms after attempt `attempt`); and a retry is
never issued after a timeout: when an attempt's error message matches
`/timed out/i`, the loop ends at that attempt immediately, with that error
and no backoff, whatever fuel remains. -/
theorem withRetry_bounded_and_timeout_stops
    (outcome : Nat → Except String String) (maxRetries attempt fuel : Nat)
    (e : String) (h1 : outcome attempt = .error e)
    (h2 : timedOutTest e = true) :
    (withRetry outcome maxRetries).2.1 ≤ maxRetries + 1
    ∧ (withRetry outcome maxRetries).2.2
        = (List.range' 1 ((withRetry outcome maxRetries).2.1 - 1)).map
            (fun i => 1000 * i)
    ∧ withRetryLoop outcome maxRetries attempt (fuel + 1)
        = (.error e, attempt, []) := by
  have hp := withRetryLoop_props outcome maxRetries (maxRetries + 1) 1
    (by omega) (by omega)
  refine ⟨hp.2.1, hp.2.2, ?_⟩
  simp [withRetryLoop, h1, h2]

/-- Witness for C8: an operation whose first attempt times out is attempted
exactly once, with no backoff, even with `maxRetries = 2`. -/
theorem withRetry_bounded_and_timeout_stops_witness :
    (withRetry (fun n => if n = 1
        then .error "speed audit timed out after 60000ms" else .ok "done") 2).2.1
      ≤ 2 + 1
    ∧ (withRetry (fun n => if n = 1
        then .error "speed audit timed out after 60000ms" else .ok "done") 2).2.2
      = (List.range' 1 ((withRetry (fun n => if n = 1
          then .error "speed audit timed out after 60000ms" else .ok "done") 2).2.1
            - 1)).map (fun i => 1000 * i)
    ∧ withRetryLoop (fun n => if n = 1
        then .error "speed audit timed out after 60000ms" else .ok "done") 2 1 (1 + 1)
      = (.error "speed audit timed out after 60000ms", 1, []) :=
  withRetry_bounded_and_timeout_stops
    (fun n => if n = 1
      then .error "speed audit timed out after 60000ms" else .ok "done")
    2 1 1 "speed audit timed out after 60000ms" rfl (by decide)

/-! ### Orchestrator status theorems -/

/-- Counterexample to C9: every task's status starts as `failed`, not
`pending` — the code's `AnalysisStatus` union has no `pending` member at
all, so the initial `crawl` status maps to `failed` in the specification's
enum, falsifying "each task's status starts as pending". -/
theorem analysisStatus_initial_not_pending_counterexample :
    toSpecStatus (initialAnalysisStatus TaskName.crawl)
      ≠ SpecAnalysisTaskStatus.pending
    ∧ initialAnalysisStatus TaskName.crawl = AnalysisStatus.failed := by
  exact ⟨by decide, by decide⟩

/-- C9 (amended): every task status takes values in the closed four-value
union `complete | failed | skipped | timed_out` — no status corresponds to
the specification's `pending` — and in every orchestrator run all seven
task statuses are initialized to `failed`, which plays the role of
"not (yet) successfully analyzed". -/
theorem analysisStatus_enum_amended :
    (∀ st : AnalysisStatus, toSpecStatus st ≠ SpecAnalysisTaskStatus.pending)
    ∧ (∀ st : AnalysisStatus, st = AnalysisStatus.complete
        ∨ st = AnalysisStatus.failed ∨ st = AnalysisStatus.skipped
        ∨ st = AnalysisStatus.timed_out)
    ∧ (∀ t : TaskName, initialAnalysisStatus t = AnalysisStatus.failed) := by
  refine ⟨?_, ?_, ?_⟩
  · intro st
    cases st <;> simp [toSpecStatus]
  · intro st
    cases st <;> simp
  · intro t
    cases t <;> rfl
